import Mathlib

/-
  Shallow embedding of the offline-first sync engine of the POC-PWA2 employee
  manager.  The definitions below are translated from:
    - src/services/sync.ts      (SyncService: drain, merge, project, prune)
    - src/services/database.ts  (EmployeeDatabase over Dexie: outbox + store)
    - src/components/EmployeeManager.vue (temporary negative ids for creates)
    - backend/server.js         (processOfflineEmployees: identity promotion)
  The Automerge document is modelled as an association list from string keys
  to employee records; `change` blocks become pure state transformations and
  network calls become explicit outcome parameters.
-/

namespace PocPwa

/-- Employee record, from src/types/employee.ts.  All scalar fields are
strings; EmployeeID is a number (modelled as Int, since every id the client
produces is an integer). -/
structure Employee where
  EmployeeID : Int
  FirstName : String
  LastName : String
  Department : String
  Position : String
  HireDate : String
  BirthDate : String
  Gender : String
  Email : String
  PhoneNumber : String
  Address : String
  Status : String
deriving DecidableEq, Repr

/-- The three change-log operations, from src/types/employee.ts. -/
inductive Operation where
  | create
  | update
  | delete
deriving DecidableEq, Repr

/-- A change-log (outbox) entry, from src/types/employee.ts.  `id` is the
Dexie auto-increment key (absent until assigned). -/
structure EmployeeChange where
  id : Option Nat
  employee : Employee
  timestamp : Int
  operation : Operation
  synced : Bool
deriving DecidableEq, Repr

/-- The `employees` field of the Automerge document: a mapping from string
keys (stable `String(id)` or ephemeral `new-...`) to records, modelled as an
association list. -/
abbrev EmployeeMap := List (String × Employee)

/-- Read a key from the document map (JS `doc.employees[key]`, undefined
becoming none). -/
def mapGet {α : Type} (m : List (String × α)) (k : String) : Option α :=
  (m.find? (fun p => p.1 == k)).map Prod.snd

/-- Write a key into the document map (JS `doc.employees[key] = v`): any
existing entries under the key are replaced. -/
def mapPut {α : Type} (m : List (String × α)) (k : String) (v : α) : List (String × α) :=
  m.filter (fun p => p.1 != k) ++ [(k, v)]

/-- Remove a key from the document map (JS `delete doc.employees[key]`). -/
def mapDel {α : Type} (m : List (String × α)) (k : String) : List (String × α) :=
  m.filter (fun p => p.1 != k)

/-- Number of entries a key holds in the map (a well-formed document has at
most one). -/
def countKey {α : Type} (m : List (String × α)) (k : String) : Nat :=
  (m.filter (fun p => p.1 == k)).length

/-- JS `s.startsWith(pre)`, modelled over the character list of the string
(Lean's own String.startsWith does not reduce in the kernel). -/
def jsStartsWith (s pre : String) : Bool :=
  s.data.take pre.data.length == pre.data

/-- The Automerge document of sync.ts (interface EmployeeDocument). -/
structure EmployeeDocument where
  employees : EmployeeMap
  lastModified : Int
deriving DecidableEq, Repr

/-- The ephemeral key built by applyLocalChanges for create-semantics:
  `new-${FirstName}-${LastName}-${timestamp}`  (sync.ts line 92 / 104). -/
def createKey (firstName lastName : String) (timestamp : Int) : String :=
  "new-" ++ firstName ++ "-" ++ lastName ++ "-" ++ toString timestamp

/-- The tombstone written by the delete case of applyLocalChanges
(sync.ts lines 118-131): each field prefers the value already present in the
replica (`existed?.Field ?? ch.employee.Field ?? two fallbacks`) and Status is
forced to "Deleted".  In the typed model a present entry always has every
field, so the per-field fallbacks collapse to: take all fields from the
existing entry when one exists, else from the caller-supplied snapshot. -/
def tombstoneOf (existed : Option Employee) (snap : Employee) : Employee :=
  match existed with
  | some ex =>
    { EmployeeID := ex.EmployeeID
      FirstName := ex.FirstName
      LastName := ex.LastName
      Department := ex.Department
      Position := ex.Position
      HireDate := ex.HireDate
      BirthDate := ex.BirthDate
      Gender := ex.Gender
      Email := ex.Email
      PhoneNumber := ex.PhoneNumber
      Address := ex.Address
      Status := "Deleted" }
  | none => { snap with Status := "Deleted" }

/-- One iteration of the loop body of SyncService.applyLocalChanges
(sync.ts lines 85-138): the switch over the operation inside one
Automerge change block.  The update guard `!Number.isInteger(idNum) ||
idNum <= 0` reduces to `idNum <= 0` in the Int model. -/
def applyChange (doc : EmployeeDocument) (ch : EmployeeChange) : EmployeeDocument :=
  match ch.operation with
  | Operation.create =>
    let newEmployee := { ch.employee with EmployeeID := 0 }
    let key := createKey ch.employee.FirstName ch.employee.LastName ch.timestamp
    { employees := mapPut doc.employees key newEmployee, lastModified := ch.timestamp }
  | Operation.update =>
    let idNum := ch.employee.EmployeeID
    if idNum ≤ 0 then
      let newEmployee := { ch.employee with EmployeeID := 0 }
      let key := createKey ch.employee.FirstName ch.employee.LastName ch.timestamp
      { employees := mapPut doc.employees key newEmployee, lastModified := ch.timestamp }
    else
      { employees := mapPut doc.employees (toString idNum) ch.employee,
        lastModified := ch.timestamp }
  | Operation.delete =>
    let key := toString ch.employee.EmployeeID
    let existed := mapGet doc.employees key
    { employees := mapPut doc.employees key (tombstoneOf existed ch.employee),
      lastModified := ch.timestamp }

/-- SyncService.applyLocalChanges (sync.ts lines 75-145): folds every
unsynced change into the document and collects the ids of the processed
entries (entries without an id are skipped when collecting, as in
`if (ch.id !== undefined) processedChangeIds.push(ch.id)`).  The synced flag
is deliberately NOT set here. -/
def applyLocalChanges (doc : EmployeeDocument) (unsyncedChanges : List EmployeeChange) :
    EmployeeDocument × List Nat :=
  unsyncedChanges.foldl
    (fun acc ch =>
      (applyChange acc.1 ch,
        match ch.id with
        | some i => acc.2 ++ [i]
        | none => acc.2))
    (doc, [])

/-- Process-wide sync state, from src/types/employee.ts (table syncState). -/
structure SyncState where
  lastSyncTimestamp : Int
  pendingChanges : List EmployeeChange
  isOnline : Bool
  isSyncing : Bool
deriving DecidableEq, Repr

/-- The local Dexie database (src/services/database.ts): materialized
employees table (keyed by EmployeeID), the change log, and the sync state.
`nextChangeId` models Dexie's `++id` auto-increment counter for the change
log. -/
structure DBState where
  employees : List Employee
  changes : List EmployeeChange
  syncState : SyncState
  nextChangeId : Nat
deriving DecidableEq, Repr

/-- EmployeeDatabase.getUnsyncedChanges (database.ts lines 128-130). -/
def getUnsyncedChanges (db : DBState) : List EmployeeChange :=
  db.changes.filter (fun ch => ch.synced == false)

/-- EmployeeDatabase.markChangesSynced (database.ts lines 133-135):
`changes.where(id).anyOf(changeIds).modify(synced := true)`. -/
def markChangesSynced (db : DBState) (changeIds : List Nat) : DBState :=
  { db with
    changes := db.changes.map (fun ch =>
      match ch.id with
      | some i => if changeIds.contains i then { ch with synced := true } else ch
      | none => ch) }

/-- `db.changes.where(id).anyOf(ids).delete()` as used by the create/delete
cancellation in SyncService.syncWithServer (sync.ts line 180). -/
def deleteChangesByIds (db : DBState) (ids : List Nat) : DBState :=
  { db with
    changes := db.changes.filter (fun ch =>
      match ch.id with
      | some i => !(ids.contains i)
      | none => true) }

/-- `this.changes.add({employee, timestamp, operation, synced: false})`
(database.ts): appends a fresh unsynced entry under the next auto id. -/
def addChange (db : DBState) (employee : Employee) (timestamp : Int)
    (op : Operation) : DBState :=
  { db with
    changes := db.changes ++
      [{ id := some db.nextChangeId, employee := employee, timestamp := timestamp,
         operation := op, synced := false }],
    nextChangeId := db.nextChangeId + 1 }

/-- The synthesized tombstone snapshot of EmployeeDatabase.deleteEmployee
(database.ts lines 99-112): the requested id, empty string fields and
Status "Deleted". -/
def emptyTombstone (employeeId : Int) : Employee :=
  { EmployeeID := employeeId, FirstName := "", LastName := "", Department := "",
    Position := "", HireDate := "", BirthDate := "", Gender := "", Email := "",
    PhoneNumber := "", Address := "", Status := "Deleted" }

/-- EmployeeDatabase.deleteEmployee (database.ts lines 85-120).  When a row
with the id exists, the row removal and the log append run in one Dexie
transaction — modelled as the single state transformation below; when no row
exists, only a delete entry carrying the synthesized tombstone is appended. -/
def deleteEmployee (db : DBState) (employeeId : Int) (now : Int) : DBState :=
  match db.employees.find? (fun e => e.EmployeeID == employeeId) with
  | some employee =>
    let db1 := { db with
      employees := db.employees.filter (fun e => e.EmployeeID != employeeId) }
    addChange db1 employee now Operation.delete
  | none => addChange db (emptyTombstone employeeId) now Operation.delete

/-- EmployeeDatabase.addEmployee (database.ts lines 59-69): materialized
write plus a create log entry, in one transaction. -/
def addEmployee (db : DBState) (employee : Employee) (now : Int) : DBState :=
  let db1 := { db with
    employees := db.employees.filter (fun e => e.EmployeeID != employee.EmployeeID)
      ++ [employee] }
  addChange db1 employee now Operation.create

/-- updateSyncState with the literal `{ isSyncing: b }` partial object, as
called at sync.ts lines 157 and 216. -/
def setSyncing (db : DBState) (b : Bool) : DBState :=
  { db with syncState := { db.syncState with isSyncing := b } }

/-- updateSyncState with `{ isSyncing: false, lastSyncTimestamp: Date.now() }`
(sync.ts line 211). -/
def setSyncingDone (db : DBState) (now : Int) : DBState :=
  { db with syncState :=
      { db.syncState with isSyncing := false, lastSyncTimestamp := now } }

/-- The set of temporary ids to cancel (sync.ts lines 166-171): the
EmployeeIDs of pending delete entries whose id is negative.  The source
builds a JS Set; membership in this list is what the model uses. -/
def tempIdsToDrop (pending : List EmployeeChange) : List Int :=
  (pending.filter (fun ch =>
    ch.operation == Operation.delete && ch.employee.EmployeeID < 0)).map
    (fun ch => ch.employee.EmployeeID)

/-- The change ids removed by the cancellation (sync.ts lines 173-178):
every pending entry whose EmployeeID is a cancelled temporary id and whose
Dexie id is present. -/
def toRemoveIds (pending : List EmployeeChange) (dropIds : List Int) : List Nat :=
  (pending.filter (fun ch => dropIds.contains ch.employee.EmployeeID)).filterMap
    (fun ch => ch.id)

/-- Steps 1-2 of SyncService.syncWithServer (sync.ts lines 159-186): read the
pending outbox, cancel create/delete pairs on the same temporary id by
physically deleting their log rows, then apply the remaining unsynced entries
to the replica (applyLocalChanges re-reads the outbox after the deletion).
The source skips the Dexie delete when nothing is to be removed; deleting an
empty id list is the identity, so the model always filters.  Returns the
drained document, the processed change ids and the database state. -/
def drainStep (doc : EmployeeDocument) (db : DBState) :
    EmployeeDocument × List Nat × DBState :=
  let pending := getUnsyncedChanges db
  let dropIds := tempIdsToDrop pending
  let db2 := deleteChangesByIds db (toRemoveIds pending dropIds)
  let drained :=
    if pending.isEmpty then (doc, []) else applyLocalChanges doc (getUnsyncedChanges db2)
  (drained.1, drained.2, db2)

/-- The entries SyncService.updateLocalDatabase keeps (sync.ts lines
284-299): skip temporary keys (new- or temp-), temporary ids (≤ 0) and
tombstones (Status "Deleted"). -/
def validEntries (doc : EmployeeDocument) : List (String × Employee) :=
  doc.employees.filter (fun p =>
    !(jsStartsWith p.1 "new-") && !(jsStartsWith p.1 "temp-") &&
    decide (0 < p.2.EmployeeID) && p.2.Status != "Deleted")

/-- `db.employees.put(employee)` with EmployeeID as primary key (schema v2):
replaces any row with the same id, else appends. -/
def putEmployeeRow (rows : List Employee) (e : Employee) : List Employee :=
  rows.filter (fun r => r.EmployeeID != e.EmployeeID) ++ [e]

/-- SyncService.updateLocalDatabase (sync.ts lines 277-313): clear the
employees table, then put every valid entry of the merged document. -/
def updateLocalDatabase (doc : EmployeeDocument) (db : DBState) : DBState :=
  { db with employees := ((validEntries doc).map Prod.snd).foldl putEmployeeRow [] }

/-- The predicate of SyncService.cleanCRDTDocument (sync.ts lines 320-327):
a temporary key (new- or temp-) or a temporary id (EmployeeID ≤ 0). -/
def isTempKeyOrId (p : String × Employee) : Bool :=
  jsStartsWith p.1 "new-" || jsStartsWith p.1 "temp-" ||
    decide (p.2.EmployeeID ≤ 0)

/-- SyncService.cleanCRDTDocument (sync.ts lines 316-339): collect the keys
of temporary entries; when none, return unchanged; otherwise delete those
keys inside one change block and stamp lastModified with Date.now(). -/
def cleanCRDTDocument (doc : EmployeeDocument) (now : Int) : EmployeeDocument :=
  let keysToDelete := (doc.employees.filter isTempKeyOrId).map Prod.fst
  if keysToDelete.isEmpty then doc
  else
    { employees := doc.employees.filter (fun p => !(keysToDelete.contains p.1)),
      lastModified := now }

/-- The environment of one syncWithServer invocation: connectivity, the
clock, the outcomes of the two network calls, and the Automerge merge
function (opaque to the client code). -/
structure SyncEnv where
  online : Bool
  now : Int
  fetchResult : Except Unit EmployeeDocument
  pushResult : Except Unit Unit
  mergeFn : EmployeeDocument → EmployeeDocument → EmployeeDocument

/-- SyncService.fetchServerDocument (sync.ts lines 223-236): any error while
fetching or decoding the snapshot is caught inside the method, which then
returns null — the failure is NOT propagated to the cycle. -/
def fetchServerDocument (env : SyncEnv) : Option EmployeeDocument :=
  match env.fetchResult with
  | Except.ok d => some d
  | Except.error _ => none

/-- SyncService.syncWithServer (sync.ts lines 150-219).  Offline: return
false immediately.  Otherwise: set isSyncing, drain the outbox (steps 1-2),
fetch and merge the server snapshot (step 3), push when local changes were
processed (step 4; a push error is the only throwing step in this model and
lands in the catch block, which resets isSyncing and returns false), mark
the processed batch synced (step 5), rebuild the materialized store (step 6),
prune the replica (step 7) and record the finished sync state.  The function
is total — it always returns a boolean, mirroring the promise never
rejecting. -/
def syncWithServer (env : SyncEnv) (doc : EmployeeDocument) (db : DBState) :
    Bool × EmployeeDocument × DBState :=
  if !env.online then (false, doc, db)
  else
    let db1 := setSyncing db true
    let drained := drainStep doc db1
    let doc2 := drained.1
    let processed := drained.2.1
    let db2 := drained.2.2
    let doc3 :=
      match fetchServerDocument env with
      | some serverDoc => env.mergeFn doc2 serverDoc
      | none => doc2
    let pushOutcome : Except Unit Unit :=
      if processed.isEmpty then Except.ok () else env.pushResult
    match pushOutcome with
    | Except.error _ => (false, doc3, setSyncing db2 false)
    | Except.ok _ =>
      let db3 := if processed.isEmpty then db2 else markChangesSynced db2 processed
      let db4 := updateLocalDatabase doc3 db3
      let doc4 := cleanCRDTDocument doc3 env.now
      (true, doc4, setSyncingDone db4 env.now)

/-
  Connectivity scheduler (sync.ts lines 39-71, 341-360, 396-408).
  The single observable fields are the private SyncService member
  isSyncInProgress and, as ground truth for the model, the number of
  syncWithServer invocations currently awaiting completion.
-/

/-- The scheduler-relevant state of the SyncService instance.
`isSyncInProgress` is the private field declared (and initialized to false)
at sync.ts line 40; `cyclesInFlight` counts syncWithServer calls that have
started and not yet settled. -/
structure ClientState where
  isSyncInProgress : Bool
  cyclesInFlight : Nat
deriving DecidableEq, Repr

/-- The field initializer of sync.ts line 40 and the constructor. -/
def initialClient : ClientState := { isSyncInProgress := false, cyclesInFlight := 0 }

/-- The trigger and lifecycle events of the scheduler. -/
inductive ClientEvent where
  /-- The window online listener body (sync.ts lines 44-63): guard check on
  isSyncInProgress, then arm the debounce timer. -/
  | onlineEvent
  /-- The debounce timer firing (sync.ts line 59-61): calls syncWithServer. -/
  | debounceFire
  /-- manualSync (sync.ts lines 342-345): calls syncWithServer with no guard. -/
  | manualTrigger
  /-- The periodic interval body with the outbox non-empty (sync.ts lines
  398-407): calls syncWithServer with no guard. -/
  | pollFire
  /-- A running syncWithServer call settles (resolves or rejects). -/
  | cycleSettled
deriving DecidableEq, Repr

/-- One scheduler event, returning the next state and whether the trigger
was dropped by the single-flight guard.  Faithful to the source: the only
write to isSyncInProgress in the entire repository is its initializer, so no
event below assigns it; starting a cycle only increments the in-flight
count. -/
def stepClient (s : ClientState) (e : ClientEvent) : ClientState × Bool :=
  match e with
  | ClientEvent.onlineEvent =>
    if s.isSyncInProgress then (s, true)
    else (s, false)
  | ClientEvent.debounceFire =>
    ({ s with cyclesInFlight := s.cyclesInFlight + 1 }, false)
  | ClientEvent.manualTrigger =>
    ({ s with cyclesInFlight := s.cyclesInFlight + 1 }, false)
  | ClientEvent.pollFire =>
    ({ s with cyclesInFlight := s.cyclesInFlight + 1 }, false)
  | ClientEvent.cycleSettled =>
    ({ s with cyclesInFlight := s.cyclesInFlight - 1 }, false)

/-- Run a sequence of scheduler events. -/
def runClient (s : ClientState) (es : List ClientEvent) : ClientState :=
  es.foldl (fun st e => (stepClient st e).1) s

/-
  Server-side identity reconciliation (backend/server.js lines 644-723,
  processOfflineEmployees).  The server document's date fields can become
  null (`employee.HireDate || null`), so its record type carries them as
  Option String; every other field is coerced through String(x || fallback).
-/

/-- An employee record as held in the server's Automerge document.
HireDate and BirthDate are nullable there (none models JS null). -/
structure SEmployee where
  EmployeeID : Int
  FirstName : String
  LastName : String
  Department : String
  Position : String
  HireDate : Option String
  BirthDate : Option String
  Gender : String
  Email : String
  PhoneNumber : String
  Address : String
  Status : String
deriving DecidableEq, Repr

/-- The server document's employees map. -/
abbrev SEmployeeMap := List (String × SEmployee)

/-- JS `String(s || fallback)` for a string s: the fallback replaces exactly
the empty (falsy) string. -/
def jsStringOr (s fallback : String) : String :=
  if s = "" then fallback else s

/-- JS `x || null` for a nullable string x: null and the empty string both
become null. -/
def jsOrNull (o : Option String) : Option String :=
  match o with
  | some s => if s = "" then none else some s
  | none => none

/-- The scan predicate of processOfflineEmployees (server.js lines 651-659):
a key starting with new-, or an EmployeeID ≤ 0. -/
def isOfflineEntry (p : String × SEmployee) : Bool :=
  jsStartsWith p.1 "new-" || decide (p.2.EmployeeID ≤ 0)

/-- The updatedEmployee object built by processOfflineEmployees (server.js
lines 700-714) once the database has assigned newEmployeeId. -/
def promoteEmployee (newEmployeeId : Int) (e : SEmployee) : SEmployee :=
  { EmployeeID := newEmployeeId
    FirstName := jsStringOr e.FirstName ""
    LastName := jsStringOr e.LastName ""
    Department := jsStringOr e.Department ""
    Position := jsStringOr e.Position ""
    HireDate := jsOrNull e.HireDate
    BirthDate := jsOrNull e.BirthDate
    Gender := jsStringOr e.Gender ""
    Email := jsStringOr e.Email ""
    PhoneNumber := jsStringOr e.PhoneNumber ""
    Address := jsStringOr e.Address ""
    Status := jsStringOr e.Status "Active" }

/-- The single Automerge.change block of processOfflineEmployees (server.js
lines 698-717) for one scanned entry: delete the ephemeral key and write the
promoted record under the stable key String(newEmployeeId) — one replica
mutation. -/
def reconcileOfflineEntry (m : SEmployeeMap) (key : String) (e : SEmployee)
    (newEmployeeId : Int) : SEmployeeMap :=
  mapPut (mapDel m key) (toString newEmployeeId) (promoteEmployee newEmployeeId e)

/-
  Concrete sample data for counterexamples and witnesses.
-/

/-- A sample employee record with the given id and status. -/
def sampleEmployee (id : Int) (status : String) : Employee :=
  { EmployeeID := id, FirstName := "Ann", LastName := "Lee", Department := "IT",
    Position := "Dev", HireDate := "2024-01-01", BirthDate := "1990-01-01",
    Gender := "F", Email := "ann@x.y", PhoneNumber := "123", Address := "Rd 1",
    Status := status }

/-- The empty replica document. -/
def emptyDoc : EmployeeDocument := { employees := [], lastModified := 0 }

/-- A fresh sync state (online, not syncing). -/
def sampleSyncState : SyncState :=
  { lastSyncTimestamp := 0, pendingChanges := [], isOnline := true, isSyncing := false }

/-- A pending delete entry for a record the replica does not hold. -/
def sampleDeleteChange : EmployeeChange :=
  { id := some 1, employee := sampleEmployee 5 "Active", timestamp := 9,
    operation := Operation.delete, synced := false }

/-- A pending update entry for a stable record. -/
def sampleUpdateChange : EmployeeChange :=
  { id := some 1, employee := sampleEmployee 1 "Active", timestamp := 10,
    operation := Operation.update, synced := false }

/-- A database whose outbox holds one unsynced update. -/
def sampleDb : DBState :=
  { employees := [sampleEmployee 1 "Active"], changes := [sampleUpdateChange],
    syncState := sampleSyncState, nextChangeId := 2 }

/-- An environment in which the snapshot fetch fails but the push succeeds. -/
def envFetchFail : SyncEnv :=
  { online := true, now := 99, fetchResult := Except.error (),
    pushResult := Except.ok (), mergeFn := fun a _ => a }

/-- An environment in which the push fails. -/
def envPushFail : SyncEnv :=
  { online := true, now := 99, fetchResult := Except.error (),
    pushResult := Except.error (), mergeFn := fun a _ => a }

/-- An offline environment. -/
def envOffline : SyncEnv :=
  { online := false, now := 99, fetchResult := Except.error (),
    pushResult := Except.ok (), mergeFn := fun a _ => a }

/-- An offline create entry under temporary id -5 (EmployeeManager.vue
assigns negative temporary ids to offline creates). -/
def tempCreateChange : EmployeeChange :=
  { id := some 0, employee := sampleEmployee (-5) "Active", timestamp := 1,
    operation := Operation.create, synced := false }

/-- The matching offline delete entry for temporary id -5. -/
def tempDeleteChange : EmployeeChange :=
  { id := some 1, employee := sampleEmployee (-5) "Active", timestamp := 2,
    operation := Operation.delete, synced := false }

/-- A database whose outbox holds exactly the offline create/delete pair. -/
def pairDb : DBState :=
  { employees := [sampleEmployee (-5) "Active"],
    changes := [tempCreateChange, tempDeleteChange],
    syncState := sampleSyncState, nextChangeId := 2 }

/-- A document with one stable entry, one ephemeral entry and one stable
tombstone. -/
def mixedDoc : EmployeeDocument :=
  { employees := [("3", sampleEmployee 3 "Active"),
                  ("new-Ann-Lee-1", sampleEmployee 0 "Active"),
                  ("4", sampleEmployee 4 "Deleted")],
    lastModified := 0 }

/-- A document holding only a tombstoned entry under its stable key. -/
def tombDoc : EmployeeDocument :=
  { employees := [("5", sampleEmployee 5 "Deleted")], lastModified := 0 }

/-- A server-document record created offline: temporary id 0 and an empty
(falsy) Status string. -/
def offlineSEmp : SEmployee :=
  { EmployeeID := 0, FirstName := "John", LastName := "Doe", Department := "Eng",
    Position := "Dev", HireDate := some "2020-01-01", BirthDate := none,
    Gender := "M", Email := "j@x.y", PhoneNumber := "7", Address := "Rd 2",
    Status := "" }

/-- A server document holding the offline record under its ephemeral key. -/
def offlineSDoc : SEmployeeMap := [("new-John-Doe-1000", offlineSEmp)]

/-- A database with an empty outbox. -/
def idleDb : DBState :=
  { employees := [], changes := [], syncState := sampleSyncState,
    nextChangeId := 0 }

/-
  Helper lemmas about the association-list document map.
-/

lemma mapGet_nil {α : Type} (k : String) : mapGet ([] : List (String × α)) k = none := rfl

lemma mapGet_cons {α : Type} (a : String × α) (t : List (String × α)) (k : String) :
    mapGet (a :: t) k = if a.1 = k then some a.2 else mapGet t k := by
  by_cases h : a.1 = k
  · simp [mapGet, List.find?, h]
  · have hb : (a.1 == k) = false := by simp [h]
    simp [mapGet, List.find?, h, hb]

lemma mapPut_nil {α : Type} (k : String) (v : α) : mapPut ([] : List (String × α)) k v = [(k, v)] := rfl

lemma mapPut_cons {α : Type} (a : String × α) (t : List (String × α)) (k : String) (v : α) :
    mapPut (a :: t) k v = if a.1 = k then mapPut t k v else a :: mapPut t k v := by
  by_cases h : a.1 = k <;> simp [mapPut, List.filter_cons, h]

lemma mapDel_cons {α : Type} (a : String × α) (t : List (String × α)) (k : String) :
    mapDel (a :: t) k = if a.1 = k then mapDel t k else a :: mapDel t k := by
  by_cases h : a.1 = k <;> simp [mapDel, List.filter_cons, h]

lemma mapGet_mapPut_self {α : Type} (m : List (String × α)) (k : String) (v : α) :
    mapGet (mapPut m k v) k = some v := by
  induction m with
  | nil => simp [mapPut_nil, mapGet_cons, mapGet_nil]
  | cons a t ih =>
    rw [mapPut_cons]
    by_cases h : a.1 = k
    · simpa [h] using ih
    · simpa [h, mapGet_cons] using ih

lemma mapGet_mapPut_ne {α : Type} (m : List (String × α)) (k k' : String) (v : α)
    (h : k' ≠ k) : mapGet (mapPut m k v) k' = mapGet m k' := by
  have hk : k ≠ k' := fun hh => h hh.symm
  induction m with
  | nil => simp [mapPut_nil, mapGet_cons, mapGet_nil, hk]
  | cons a t ih =>
    rw [mapPut_cons]
    by_cases h1 : a.1 = k
    · have h2 : a.1 ≠ k' := by rw [h1]; exact hk
      rw [if_pos h1, ih, mapGet_cons, if_neg h2]
    · rw [if_neg h1, mapGet_cons, mapGet_cons, ih]

lemma mapGet_mapDel_self {α : Type} (m : List (String × α)) (k : String) :
    mapGet (mapDel m k) k = none := by
  induction m with
  | nil => simp [mapDel, mapGet_nil]
  | cons a t ih =>
    rw [mapDel_cons]
    by_cases h : a.1 = k
    · simpa [h] using ih
    · simpa [h, mapGet_cons] using ih

lemma mapGet_mapDel_ne {α : Type} (m : List (String × α)) (k k' : String)
    (h : k' ≠ k) : mapGet (mapDel m k) k' = mapGet m k' := by
  induction m with
  | nil => simp [mapDel, mapGet_nil]
  | cons a t ih =>
    rw [mapDel_cons]
    by_cases h1 : a.1 = k
    · have h2 : a.1 ≠ k' := by rw [h1]; exact fun hh => h hh.symm
      rw [if_pos h1, ih, mapGet_cons, if_neg h2]
    · rw [if_neg h1, mapGet_cons, mapGet_cons, ih]

lemma countKey_mapPut_self {α : Type} (m : List (String × α)) (k : String) (v : α) :
    countKey (mapPut m k v) k = 1 := by
  have hnil : (m.filter (fun p => p.1 != k)).filter (fun p => p.1 == k) = [] := by
    induction m with
    | nil => simp
    | cons a t ih =>
      rw [List.filter_cons]
      by_cases h : a.1 = k
      · simp [h, ih]
      · simp [h, ih]
  simp [countKey, mapPut, List.filter_append, hnil]

lemma mem_foldl_putEmployeeRow (l : List Employee) (init : List Employee)
    (e : Employee) (h : e ∈ l.foldl putEmployeeRow init) : e ∈ init ∨ e ∈ l := by
  induction l generalizing init with
  | nil => exact Or.inl (by simpa using h)
  | cons a t ih =>
    rcases ih (putEmployeeRow init a) (by simpa using h) with h1 | h2
    · rcases List.mem_append.1 h1 with hf | ha
      · exact Or.inl (List.mem_filter.1 hf).1
      · right
        simp only [List.mem_singleton] at ha
        simp [ha]
    · exact Or.inr (List.mem_cons_of_mem a h2)

lemma eq_of_mem_of_nodup_keys {α : Type} {m : List (String × α)}
    (h : (m.map Prod.fst).Nodup) {p q : String × α}
    (hp : p ∈ m) (hq : q ∈ m) (hk : p.1 = q.1) : p = q := by
  induction m with
  | nil => cases hp
  | cons a t ih =>
    simp only [List.map_cons, List.nodup_cons] at h
    rcases List.mem_cons.1 hp with hpa | hpt
    · rcases List.mem_cons.1 hq with hqa | hqt
      · rw [hpa, hqa]
      · exfalso
        apply h.1
        have hmem : q.1 ∈ t.map Prod.fst := List.mem_map_of_mem Prod.fst hqt
        rw [← hk, hpa] at hmem
        exact hmem
    · rcases List.mem_cons.1 hq with hqa | hqt
      · exfalso
        apply h.1
        have hmem : p.1 ∈ t.map Prod.fst := List.mem_map_of_mem Prod.fst hpt
        rw [hk, hqa] at hmem
        exact hmem
      · exact ih h.2 hpt hqt

lemma stepClient_isSyncInProgress (s : ClientState) (e : ClientEvent) :
    ((stepClient s e).1).isSyncInProgress = s.isSyncInProgress := by
  cases e with
  | onlineEvent => by_cases h : s.isSyncInProgress <;> simp [stepClient, h]
  | debounceFire => rfl
  | manualTrigger => rfl
  | pollFire => rfl
  | cycleSettled => rfl

lemma runClient_isSyncInProgress (es : List ClientEvent) :
    ∀ s : ClientState, (runClient s es).isSyncInProgress = s.isSyncInProgress := by
  induction es with
  | nil => intro s; rfl
  | cons e t ih =>
    intro s
    have h1 : runClient s (e :: t) = runClient ((stepClient s e).1) t := rfl
    rw [h1, ih, stepClient_isSyncInProgress]

/-- C1: the claim says a trigger firing while a cycle is in flight is
dropped by the single-flight guard.  In the code the guard field
isSyncInProgress is initialized to false and never assigned anywhere, so it
stays false over every event sequence; consequently the online-event guard
never drops a trigger even while a cycle is in flight, and a manual trigger
during a running cycle starts a second concurrent cycle. -/
theorem sync_single_flight_guard_never_engages :
    (∀ es : List ClientEvent, (runClient initialClient es).isSyncInProgress = false) ∧
    (runClient initialClient [ClientEvent.manualTrigger]).cyclesInFlight = 1 ∧
    (stepClient (runClient initialClient [ClientEvent.manualTrigger])
        ClientEvent.onlineEvent).2 = false ∧
    ((stepClient (runClient initialClient [ClientEvent.manualTrigger])
        ClientEvent.manualTrigger).1).cyclesInFlight = 2 := by
  refine ⟨fun es => ?_, by decide, by decide, by decide⟩
  rw [runClient_isSyncInProgress]
  rfl

/-- C3 counterexample: draining a delete for a record that occupies no key
in the replica creates a brand-new entry under String(EmployeeID) — the
claim that a delete always overwrites an existing entry and never creates
one fails on the empty replica. -/
theorem applyDelete_creates_entry_when_key_absent :
    mapGet emptyDoc.employees "5" = none ∧
    emptyDoc.employees.length = 0 ∧
    (applyChange emptyDoc sampleDeleteChange).employees.length = 1 ∧
    mapGet (applyChange emptyDoc sampleDeleteChange).employees "5"
      = some { sampleEmployee 5 "Active" with Status := "Deleted" } := by
  refine ⟨rfl, rfl, rfl, ?_⟩
  decide

/-- C3 amended: the drained delete writes the tombstone under the key
String(EmployeeID) — not necessarily the key the record occupies — with
Status Deleted and every other field preferring the entry already in the
replica; when an entry exists under that key the write overwrites it and
introduces no new key, but when the key is absent a new tombstone entry is
created. -/
theorem applyDelete_tombstone_under_id_key (doc : EmployeeDocument)
    (ch : EmployeeChange) (h : ch.operation = Operation.delete) :
    mapGet (applyChange doc ch).employees (toString ch.employee.EmployeeID)
      = some (tombstoneOf (mapGet doc.employees (toString ch.employee.EmployeeID))
          ch.employee) ∧
    (∀ k', k' ≠ toString ch.employee.EmployeeID →
      mapGet (applyChange doc ch).employees k' = mapGet doc.employees k') ∧
    (∀ o s, (tombstoneOf o s).Status = "Deleted") ∧
    (∀ ex s, tombstoneOf (some ex) s = { ex with Status := "Deleted" }) ∧
    ((mapGet doc.employees (toString ch.employee.EmployeeID)).isSome →
      ∀ k', (mapGet (applyChange doc ch).employees k').isSome
          = (mapGet doc.employees k').isSome) := by
  have happ : (applyChange doc ch).employees
      = mapPut doc.employees (toString ch.employee.EmployeeID)
          (tombstoneOf (mapGet doc.employees (toString ch.employee.EmployeeID))
            ch.employee) := by
    simp only [applyChange, h]
  refine ⟨?_, ?_, ?_, ?_, ?_⟩
  · rw [happ]; exact mapGet_mapPut_self _ _ _
  · intro k' hk; rw [happ]; exact mapGet_mapPut_ne _ _ _ _ hk
  · intro o s; cases o <;> rfl
  · intro ex s; rfl
  · intro hsome k'
    by_cases hk : k' = toString ch.employee.EmployeeID
    · rw [hk, happ, mapGet_mapPut_self]
      rw [Option.isSome_some]
      exact hsome.symm
    · rw [happ, mapGet_mapPut_ne _ _ _ _ hk]

/-- Witness for the amended C3 theorem, at the pending delete of a record
the replica holds under its stable key. -/
theorem applyDelete_tombstone_under_id_key_witness :
    sampleDeleteChange.operation = Operation.delete ∧
    mapGet (applyChange tombDoc sampleDeleteChange).employees "5"
      = some (tombstoneOf (mapGet tombDoc.employees "5")
          sampleDeleteChange.employee) := by
  refine ⟨rfl, ?_⟩
  have h := (applyDelete_tombstone_under_id_key tombDoc sampleDeleteChange rfl).1
  exact h

/-- C8: a drained update with a positive integer id writes the record under
the stable key String(id) and touches no other key; a non-positive id
downgrades to create-semantics — the id is reset to 0 and the record lands
under the fresh ephemeral key built from first name, last name and the
change timestamp. -/
theorem applyUpdate_stable_or_downgrade (doc : EmployeeDocument)
    (ch : EmployeeChange) (h : ch.operation = Operation.update) :
    (0 < ch.employee.EmployeeID →
      mapGet (applyChange doc ch).employees (toString ch.employee.EmployeeID)
        = some ch.employee ∧
      (∀ k', k' ≠ toString ch.employee.EmployeeID →
        mapGet (applyChange doc ch).employees k' = mapGet doc.employees k')) ∧
    (ch.employee.EmployeeID ≤ 0 →
      mapGet (applyChange doc ch).employees
          (createKey ch.employee.FirstName ch.employee.LastName ch.timestamp)
        = some { ch.employee with EmployeeID := 0 } ∧
      (∀ k', k' ≠ createKey ch.employee.FirstName ch.employee.LastName ch.timestamp →
        mapGet (applyChange doc ch).employees k' = mapGet doc.employees k')) := by
  constructor
  · intro hpos
    have hnle : ¬ ch.employee.EmployeeID ≤ 0 := not_le.2 hpos
    have happ : (applyChange doc ch).employees
        = mapPut doc.employees (toString ch.employee.EmployeeID) ch.employee := by
      simp only [applyChange, h, if_neg hnle]
    rw [happ]
    exact ⟨mapGet_mapPut_self _ _ _, fun k' hk => mapGet_mapPut_ne _ _ _ _ hk⟩
  · intro hle
    have happ : (applyChange doc ch).employees
        = mapPut doc.employees
            (createKey ch.employee.FirstName ch.employee.LastName ch.timestamp)
            { ch.employee with EmployeeID := 0 } := by
      simp only [applyChange, h, if_pos hle]
    rw [happ]
    exact ⟨mapGet_mapPut_self _ _ _, fun k' hk => mapGet_mapPut_ne _ _ _ _ hk⟩

/-- Witness for C8, at a pending update of the stable record 1. -/
theorem applyUpdate_stable_or_downgrade_witness :
    sampleUpdateChange.operation = Operation.update ∧
    0 < sampleUpdateChange.employee.EmployeeID ∧
    mapGet (applyChange emptyDoc sampleUpdateChange).employees "1"
      = some (sampleEmployee 1 "Active") := by
  refine ⟨rfl, by decide, ?_⟩
  have h := ((applyUpdate_stable_or_downgrade emptyDoc sampleUpdateChange rfl).1
    (by decide)).1
  exact h

/-- C5: after a rebuild of the materialized store from the replica, every
row has a positive identifier, a non-tombstoned status, and stems from a
replica entry whose key carries no ephemeral new- or temp- marker. -/
theorem materialized_store_projection_exclusive (doc : EmployeeDocument)
    (db : DBState) (e : Employee)
    (h : e ∈ (updateLocalDatabase doc db).employees) :
    0 < e.EmployeeID ∧ e.Status ≠ "Deleted" ∧
    ∃ k, (k, e) ∈ doc.employees ∧ jsStartsWith k "new-" = false ∧
      jsStartsWith k "temp-" = false := by
  have h0 : e ∈ ((validEntries doc).map Prod.snd).foldl putEmployeeRow [] := by
    simpa [updateLocalDatabase] using h
  rcases mem_foldl_putEmployeeRow _ _ _ h0 with h1 | h1
  · cases h1
  · rcases List.mem_map.1 h1 with ⟨p, hp, rfl⟩
    have h2 := List.mem_filter.1 hp
    have h3 := h2.2
    simp only [Bool.and_eq_true, Bool.not_eq_true', decide_eq_true_eq,
      bne_iff_ne, ne_eq] at h3
    obtain ⟨⟨⟨hnew, htemp⟩, hpos⟩, hstat⟩ := h3
    exact ⟨hpos, hstat, p.1, h2.1, hnew, htemp⟩

/-- Witness for C5: the stable active record of the mixed document survives
the rebuild and satisfies the projection invariant. -/
theorem materialized_store_projection_exclusive_witness :
    sampleEmployee 3 "Active" ∈ (updateLocalDatabase mixedDoc sampleDb).employees ∧
    (0 < (sampleEmployee 3 "Active").EmployeeID ∧
      (sampleEmployee 3 "Active").Status ≠ "Deleted" ∧
      ∃ k, (k, sampleEmployee 3 "Active") ∈ mixedDoc.employees ∧
        jsStartsWith k "new-" = false ∧ jsStartsWith k "temp-" = false) := by
  refine ⟨by decide, ?_⟩
  exact materialized_store_projection_exclusive mixedDoc sampleDb _ (by decide)

/-- C7 counterexample: the Projecting-step prune (cleanCRDTDocument) removes
only ephemeral entries; a tombstoned entry under its stable key — Status
"Deleted", positive id — survives it untouched, so tombstones do remain in
the replica when the cycle returns to Idle. -/
theorem clean_keeps_stable_tombstone :
    (sampleEmployee 5 "Deleted").Status = "Deleted" ∧
    0 < (sampleEmployee 5 "Deleted").EmployeeID ∧
    cleanCRDTDocument tombDoc 100 = tombDoc ∧
    mapGet (cleanCRDTDocument tombDoc 100).employees "5"
      = some (sampleEmployee 5 "Deleted") ∧
    (syncWithServer envFetchFail tombDoc idleDb).1 = true ∧
    mapGet ((syncWithServer envFetchFail tombDoc idleDb).2.1).employees "5"
      = some (sampleEmployee 5 "Deleted") := by
  refine ⟨rfl, by decide, by decide, by decide, by decide, by decide⟩

/-- C7 amended: the Projecting-step prune removes exactly the ephemeral
entries (new- or temp- prefixed key, or identifier ≤ 0): afterwards no
ephemeral entry remains, and every non-ephemeral entry — tombstoned or not —
is retained verbatim (keys assumed unique, as in an Automerge map). -/
theorem clean_prunes_exactly_ephemeral (doc : EmployeeDocument) (now : Int)
    (hnodup : (doc.employees.map Prod.fst).Nodup) :
    (∀ p ∈ (cleanCRDTDocument doc now).employees,
      jsStartsWith p.1 "new-" = false ∧ jsStartsWith p.1 "temp-" = false ∧
      0 < p.2.EmployeeID) ∧
    (∀ p ∈ doc.employees, isTempKeyOrId p = false →
      p ∈ (cleanCRDTDocument doc now).employees) := by
  by_cases hkd : ((doc.employees.filter isTempKeyOrId).map Prod.fst).isEmpty
  · have hres : cleanCRDTDocument doc now = doc := by
      simp only [cleanCRDTDocument, hkd, if_pos]
    have hfil : doc.employees.filter isTempKeyOrId = [] := by
      have := List.isEmpty_iff.1 hkd
      exact List.map_eq_nil_iff.1 this
    have hall : ∀ p ∈ doc.employees, isTempKeyOrId p = false := by
      intro p hp
      by_contra hcon
      have hpt : isTempKeyOrId p = true := by
        cases hval : isTempKeyOrId p
        · exact absurd hval hcon
        · rfl
      have : p ∈ doc.employees.filter isTempKeyOrId :=
        List.mem_filter.2 ⟨hp, hpt⟩
      rw [hfil] at this
      cases this
    constructor
    · intro p hp
      rw [hres] at hp
      have := hall p hp
      simp only [isTempKeyOrId, Bool.or_eq_false_iff, decide_eq_false_iff_not,
        not_le] at this
      exact ⟨this.1.1, this.1.2, this.2⟩
    · intro p hp _
      rw [hres]
      exact hp
  · have hres : (cleanCRDTDocument doc now).employees
        = doc.employees.filter
            (fun p => !(((doc.employees.filter isTempKeyOrId).map Prod.fst).contains p.1)) := by
      simp only [cleanCRDTDocument, hkd, if_neg]
      simp [hkd]
    constructor
    · intro p hp
      rw [hres] at hp
      have h2 := List.mem_filter.1 hp
      have hnc : ((doc.employees.filter isTempKeyOrId).map Prod.fst).contains p.1 = false := by
        have := h2.2
        cases hval : ((doc.employees.filter isTempKeyOrId).map Prod.fst).contains p.1
        · rfl
        · rw [hval] at this; cases this
      have hnotmem : p.1 ∉ (doc.employees.filter isTempKeyOrId).map Prod.fst := by
        intro hmem
        have : ((doc.employees.filter isTempKeyOrId).map Prod.fst).contains p.1 = true :=
          List.elem_eq_true_of_mem hmem
        rw [this] at hnc
        cases hnc
      have hfalse : isTempKeyOrId p = false := by
        cases hval : isTempKeyOrId p
        · rfl
        · exfalso
          exact hnotmem (List.mem_map_of_mem Prod.fst
            (List.mem_filter.2 ⟨h2.1, hval⟩))
      simp only [isTempKeyOrId, Bool.or_eq_false_iff, decide_eq_false_iff_not,
        not_le] at hfalse
      exact ⟨hfalse.1.1, hfalse.1.2, hfalse.2⟩
    · intro p hp hok
      rw [hres]
      refine List.mem_filter.2 ⟨hp, ?_⟩
      cases hval : ((doc.employees.filter isTempKeyOrId).map Prod.fst).contains p.1
      · rfl
      · exfalso
        have hmem : p.1 ∈ (doc.employees.filter isTempKeyOrId).map Prod.fst :=
          List.mem_of_elem_eq_true hval
        rcases List.mem_map.1 hmem with ⟨q, hq, hq1⟩
        have hq2 := List.mem_filter.1 hq
        have : q = p := eq_of_mem_of_nodup_keys hnodup hq2.1 hp hq1
        rw [this] at hq2
        rw [hq2.2] at hok
        cases hok

/-- Witness for the amended C7 theorem at the mixed document: the ephemeral
entry is pruned and the stable tombstone is retained. -/
theorem clean_prunes_exactly_ephemeral_witness :
    (mixedDoc.employees.map Prod.fst).Nodup ∧
    ("4", sampleEmployee 4 "Deleted") ∈ mixedDoc.employees ∧
    isTempKeyOrId ("4", sampleEmployee 4 "Deleted") = false ∧
    ("4", sampleEmployee 4 "Deleted") ∈ (cleanCRDTDocument mixedDoc 77).employees := by
  refine ⟨by decide, by decide, by decide, ?_⟩
  exact (clean_prunes_exactly_ephemeral mixedDoc 77 (by decide)).2
    _ (by decide) (by decide)

/-- C9: deleting an id with no matching materialized row still appends a
delete entry carrying the synthesized tombstone (that id, empty string
fields, Status "Deleted"); when a row exists, the one state transformation
removes the row and appends the delete entry carrying it — the two effects
of the single Dexie transaction. -/
theorem deleteEmployee_logs_tombstone_or_row (db : DBState) (employeeId : Int)
    (now : Int) :
    (db.employees.find? (fun e => e.EmployeeID == employeeId) = none →
      (deleteEmployee db employeeId now).employees = db.employees ∧
      (deleteEmployee db employeeId now).changes = db.changes ++
        [{ id := some db.nextChangeId, employee := emptyTombstone employeeId,
           timestamp := now, operation := Operation.delete, synced := false }] ∧
      (emptyTombstone employeeId).EmployeeID = employeeId ∧
      (emptyTombstone employeeId).Status = "Deleted" ∧
      (emptyTombstone employeeId).FirstName = "" ∧
      (emptyTombstone employeeId).LastName = "" ∧
      (emptyTombstone employeeId).Department = "" ∧
      (emptyTombstone employeeId).Position = "" ∧
      (emptyTombstone employeeId).HireDate = "" ∧
      (emptyTombstone employeeId).BirthDate = "" ∧
      (emptyTombstone employeeId).Gender = "" ∧
      (emptyTombstone employeeId).Email = "" ∧
      (emptyTombstone employeeId).PhoneNumber = "" ∧
      (emptyTombstone employeeId).Address = "") ∧
    (∀ e, db.employees.find? (fun e' => e'.EmployeeID == employeeId) = some e →
      (deleteEmployee db employeeId now).employees
        = db.employees.filter (fun r => r.EmployeeID != employeeId) ∧
      (deleteEmployee db employeeId now).changes = db.changes ++
        [{ id := some db.nextChangeId, employee := e, timestamp := now,
           operation := Operation.delete, synced := false }]) := by
  constructor
  · intro h
    simp [deleteEmployee, h, addChange, emptyTombstone]
  · intro e h
    simp [deleteEmployee, h, addChange]

/-- Witness for C9 at a database with no row for id 9: the tombstone entry
is appended and the employees table is untouched. -/
theorem deleteEmployee_logs_tombstone_or_row_witness :
    sampleDb.employees.find? (fun e => e.EmployeeID == (9 : Int)) = none ∧
    (deleteEmployee sampleDb 9 50).employees = sampleDb.employees ∧
    (deleteEmployee sampleDb 9 50).changes = sampleDb.changes ++
      [{ id := some sampleDb.nextChangeId, employee := emptyTombstone 9,
         timestamp := 50, operation := Operation.delete, synced := false }] := by
  have h := (deleteEmployee_logs_tombstone_or_row sampleDb 9 50).1 (by decide)
  exact ⟨by decide, h.1, h.2.1⟩

/-- C10: syncWithServer is a total function into a boolean result.  When
offline it returns false leaving the replica and the whole database
(outbox, materialized store, sync state) untouched; when online, every exit
path — the successful one and the catch path taken on a push failure —
leaves the sync state with isSyncing = false. -/
theorem syncWithServer_total_and_resets_isSyncing (env : SyncEnv)
    (doc : EmployeeDocument) (db : DBState) :
    (env.online = false → syncWithServer env doc db = (false, doc, db)) ∧
    (env.online = true →
      ((syncWithServer env doc db).2.2).syncState.isSyncing = false) := by
  constructor
  · intro h
    simp [syncWithServer, h]
  · intro h
    rw [syncWithServer, h]
    simp only [Bool.not_true, Bool.false_eq_true, if_false]
    split
    · simp [setSyncing]
    · simp [setSyncingDone]

/-- Witness for C10: the offline environment returns false unchanged, and a
push-failing online cycle still ends with isSyncing = false. -/
theorem syncWithServer_total_and_resets_isSyncing_witness :
    syncWithServer envOffline emptyDoc sampleDb = (false, emptyDoc, sampleDb) ∧
    ((syncWithServer envPushFail emptyDoc sampleDb).2.2).syncState.isSyncing = false := by
  exact ⟨(syncWithServer_total_and_resets_isSyncing envOffline emptyDoc sampleDb).1 rfl,
    (syncWithServer_total_and_resets_isSyncing envPushFail emptyDoc sampleDb).2 rfl⟩

/-- C4: when the unsynced log consists of a create and a delete for the same
negative temporary identifier, the drain step removes both rows from the
log, applies nothing to the replica and processes no change ids: zero log
entries for that identifier remain after drain. -/
theorem create_delete_pair_cancelled_in_drain (doc : EmployeeDocument)
    (db : DBState) (c d : EmployeeChange) (t : Int) (i j : Nat)
    (hlog : db.changes = [c, d])
    (hc : c.operation = Operation.create) (hd : d.operation = Operation.delete)
    (hct : c.employee.EmployeeID = t) (hdt : d.employee.EmployeeID = t)
    (ht : t < 0)
    (hci : c.id = some i) (hdi : d.id = some j)
    (hcs : c.synced = false) (hds : d.synced = false) :
    (drainStep doc db).1 = doc ∧
    (drainStep doc db).2.1 = [] ∧
    ((drainStep doc db).2.2).changes = [] := by
  subst hdt
  have hpending : getUnsyncedChanges db = [c, d] := by
    simp [getUnsyncedChanges, hlog, hcs, hds]
  have hdrop : tempIdsToDrop [c, d] = [d.employee.EmployeeID] := by
    simp [tempIdsToDrop, hc, hd, ht]
  have hrem : toRemoveIds [c, d] [d.employee.EmployeeID] = [i, j] := by
    simp [toRemoveIds, hct, hci, hdi]
  have hdb2 : (deleteChangesByIds db [i, j]).changes = [] := by
    simp [deleteChangesByIds, hlog, hci, hdi]
  have hunsynced2 : getUnsyncedChanges (deleteChangesByIds db [i, j]) = [] := by
    simp [getUnsyncedChanges, hdb2]
  have hmain : drainStep doc db = (doc, [], deleteChangesByIds db [i, j]) := by
    dsimp only [drainStep]
    rw [hpending, hdrop, hrem, hunsynced2]
    simp [applyLocalChanges]
  rw [hmain]
  exact ⟨rfl, rfl, hdb2⟩

/-- Witness for C4 at the concrete offline create/delete pair on temporary
id -5. -/
theorem create_delete_pair_cancelled_in_drain_witness :
    pairDb.changes = [tempCreateChange, tempDeleteChange] ∧
    tempCreateChange.operation = Operation.create ∧
    tempDeleteChange.operation = Operation.delete ∧
    tempCreateChange.employee.EmployeeID = -5 ∧
    tempDeleteChange.employee.EmployeeID = -5 ∧
    (-5 : Int) < 0 ∧
    ((drainStep emptyDoc pairDb).1 = emptyDoc ∧
      (drainStep emptyDoc pairDb).2.1 = [] ∧
      ((drainStep emptyDoc pairDb).2.2).changes = []) := by
  refine ⟨rfl, rfl, rfl, by decide, by decide, by decide, ?_⟩
  exact create_delete_pair_cancelled_in_drain emptyDoc pairDb
    tempCreateChange tempDeleteChange (-5) 0 1 rfl rfl rfl (by decide) (by decide)
    (by decide) rfl rfl rfl rfl

lemma drainStep_changes_sub (doc : EmployeeDocument) (db : DBState) :
    ∀ ch ∈ ((drainStep doc db).2.2).changes, ch ∈ db.changes := by
  intro ch h
  dsimp only [drainStep, deleteChangesByIds] at h
  exact List.mem_of_mem_filter h

/-- C2 counterexample: a cycle in which the snapshot fetch fails with a
network error does not abort — fetchServerDocument swallows the error and
returns null, the cycle proceeds, reports success and marks the drained
entry synced. -/
theorem fetch_error_cycle_still_marks_synced :
    fetchServerDocument envFetchFail = none ∧
    sampleUpdateChange.synced = false ∧
    (syncWithServer envFetchFail emptyDoc sampleDb).1 = true ∧
    ((syncWithServer envFetchFail emptyDoc sampleDb).2.2).changes
      = [{ sampleUpdateChange with synced := true }] := by
  refine ⟨rfl, rfl, by decide, by decide⟩

/-- C2 amended: only a failure of the snapshot push aborts the cycle without
marking entries synced — every entry in the log after such a cycle was
already in the log before, with its synced flag untouched (cancelled
temporary create/delete pairs are removed outright, not marked), and the
cycle reports failure whenever a push was actually attempted.  A fetch
failure alone does not abort the cycle. -/
theorem push_failure_leaves_outbox_unmarked (env : SyncEnv)
    (doc : EmployeeDocument) (db : DBState) (honline : env.online = true)
    (hpush : env.pushResult = Except.error ()) :
    (∀ ch ∈ ((syncWithServer env doc db).2.2).changes, ch ∈ db.changes) ∧
    ((drainStep doc (setSyncing db true)).2.1 ≠ [] →
      (syncWithServer env doc db).1 = false) := by
  rw [syncWithServer, honline]
  simp only [Bool.not_true, Bool.false_eq_true, if_false]
  cases hemp : (drainStep doc (setSyncing db true)).2.1.isEmpty with
  | true =>
    simp only [hemp, if_true]
    constructor
    · intro ch hch
      exact drainStep_changes_sub doc (setSyncing db true) ch hch
    · intro hne
      exact absurd (List.isEmpty_iff.1 hemp) hne
  | false =>
    simp only [hemp, Bool.false_eq_true, if_false, hpush]
    constructor
    · intro ch hch
      exact drainStep_changes_sub doc (setSyncing db true) ch hch
    · intro _
      trivial

/-- Witness for the amended C2 theorem: the push-failing environment leaves
the sample outbox entry in place and unmarked, and the cycle reports
failure. -/
theorem push_failure_leaves_outbox_unmarked_witness :
    envPushFail.online = true ∧
    envPushFail.pushResult = Except.error () ∧
    (∀ ch ∈ ((syncWithServer envPushFail emptyDoc sampleDb).2.2).changes,
      ch ∈ sampleDb.changes) ∧
    ((drainStep emptyDoc (setSyncing sampleDb true)).2.1 ≠ [] →
      (syncWithServer envPushFail emptyDoc sampleDb).1 = false) := by
  have h := push_failure_leaves_outbox_unmarked envPushFail emptyDoc sampleDb rfl rfl
  exact ⟨rfl, rfl, h.1, h.2⟩

lemma jsStringOr_empty_fallback (s : String) : jsStringOr s "" = s := by
  by_cases h : s = "" <;> simp [jsStringOr, h]

/-- C6 counterexample: promoting an offline record whose Status is the empty
string rewrites that field to "Active" — the claim that every field other
than the identifier is preserved unchanged fails on the ephemeral record
with empty Status. -/
theorem identity_promotion_rewrites_empty_status :
    isOfflineEntry ("new-John-Doe-1000", offlineSEmp) = true ∧
    mapGet (reconcileOfflineEntry offlineSDoc "new-John-Doe-1000" offlineSEmp 42)
        "new-John-Doe-1000" = none ∧
    mapGet (reconcileOfflineEntry offlineSDoc "new-John-Doe-1000" offlineSEmp 42)
        "42" = some { offlineSEmp with EmployeeID := 42, Status := "Active" } ∧
    ({ offlineSEmp with EmployeeID := 42, Status := "Active" } : SEmployee).Status
      ≠ offlineSEmp.Status := by
  refine ⟨by decide, by decide, by decide, by decide⟩

/-- C6 amended: within the single replica mutation, reconciliation deletes
the ephemeral entry and writes the promoted record under the stable key
String(n) with identifier n, leaving exactly one entry under the stable key
and none under the ephemeral key; the plain string fields are preserved
verbatim, while the JS falsy coercions replace an empty Status with
"Active" and an empty or null date field with null. -/
theorem identity_promotion_rekeys_and_preserves_fields (m : SEmployeeMap)
    (key : String) (e : SEmployee) (n : Int)
    (_hoff : isOfflineEntry (key, e) = true) (_hn : 0 < n)
    (hk : key ≠ toString n) :
    mapGet (reconcileOfflineEntry m key e n) key = none ∧
    mapGet (reconcileOfflineEntry m key e n) (toString n)
      = some (promoteEmployee n e) ∧
    countKey (reconcileOfflineEntry m key e n) (toString n) = 1 ∧
    (∀ k', k' ≠ key → k' ≠ toString n →
      mapGet (reconcileOfflineEntry m key e n) k' = mapGet m k') ∧
    (promoteEmployee n e).EmployeeID = n ∧
    (promoteEmployee n e).FirstName = e.FirstName ∧
    (promoteEmployee n e).LastName = e.LastName ∧
    (promoteEmployee n e).Department = e.Department ∧
    (promoteEmployee n e).Position = e.Position ∧
    (promoteEmployee n e).Gender = e.Gender ∧
    (promoteEmployee n e).Email = e.Email ∧
    (promoteEmployee n e).PhoneNumber = e.PhoneNumber ∧
    (promoteEmployee n e).Address = e.Address ∧
    (e.Status ≠ "" → (promoteEmployee n e).Status = e.Status) ∧
    (e.HireDate ≠ some "" → (promoteEmployee n e).HireDate = e.HireDate) ∧
    (e.BirthDate ≠ some "" → (promoteEmployee n e).BirthDate = e.BirthDate) := by
  refine ⟨?_, ?_, ?_, ?_, rfl, ?_, ?_, ?_, ?_, ?_, ?_, ?_, ?_, ?_, ?_, ?_⟩
  · rw [reconcileOfflineEntry, mapGet_mapPut_ne _ _ _ _ hk, mapGet_mapDel_self]
  · rw [reconcileOfflineEntry, mapGet_mapPut_self]
  · rw [reconcileOfflineEntry, countKey_mapPut_self]
  · intro k' hk1 hk2
    rw [reconcileOfflineEntry, mapGet_mapPut_ne _ _ _ _ hk2,
      mapGet_mapDel_ne _ _ _ hk1]
  · exact jsStringOr_empty_fallback e.FirstName
  · exact jsStringOr_empty_fallback e.LastName
  · exact jsStringOr_empty_fallback e.Department
  · exact jsStringOr_empty_fallback e.Position
  · exact jsStringOr_empty_fallback e.Gender
  · exact jsStringOr_empty_fallback e.Email
  · exact jsStringOr_empty_fallback e.PhoneNumber
  · exact jsStringOr_empty_fallback e.Address
  · intro h
    simp [promoteEmployee, jsStringOr, h]
  · intro h
    cases hd : e.HireDate with
    | none => simp [promoteEmployee, jsOrNull, hd]
    | some s =>
      have hs : s ≠ "" := by
        intro hs
        rw [hs] at hd
        exact h hd
      simp [promoteEmployee, jsOrNull, hd, hs]
  · intro h
    cases hd : e.BirthDate with
    | none => simp [promoteEmployee, jsOrNull, hd]
    | some s =>
      have hs : s ≠ "" := by
        intro hs
        rw [hs] at hd
        exact h hd
      simp [promoteEmployee, jsOrNull, hd, hs]

/-- Witness for the amended C6 theorem at the concrete offline record with
assigned stable identifier 42. -/
theorem identity_promotion_rekeys_and_preserves_fields_witness :
    isOfflineEntry ("new-John-Doe-1000", offlineSEmp) = true ∧
    (0 : Int) < 42 ∧
    "new-John-Doe-1000" ≠ toString (42 : Int) ∧
    (mapGet (reconcileOfflineEntry offlineSDoc "new-John-Doe-1000" offlineSEmp 42)
        "new-John-Doe-1000" = none ∧
      mapGet (reconcileOfflineEntry offlineSDoc "new-John-Doe-1000" offlineSEmp 42)
          (toString (42 : Int)) = some (promoteEmployee 42 offlineSEmp) ∧
      countKey (reconcileOfflineEntry offlineSDoc "new-John-Doe-1000" offlineSEmp 42)
          (toString (42 : Int)) = 1) := by
  have h := identity_promotion_rekeys_and_preserves_fields offlineSDoc
    "new-John-Doe-1000" offlineSEmp 42 (by decide) (by decide) (by decide)
  exact ⟨by decide, by decide, by decide, h.1, h.2.1, h.2.2.1⟩

end PocPwa
